import Mathlib

/-!
Verification of the slide-video pipeline (txt2slides / processors).

Shallow embedding of the pure algorithmic core of the repository:
artifact naming (`audio_generator.py`, `txt2slides.py`), video assembly
(`video_creator.py`), JSON repair (`fix_json_newlines`), figure matching
(`llm_processor.py`), content planning (`generate_slides_content`),
the Gemini retry loop (`extract_images_llm.py`), and the Mistral
extractor cache (`mistral_cache.py`, `mistral_unified_extractor.py`).
External collaborators (TTS, LLM, OCR, ffmpeg subprocesses) are modelled
as oracle parameters; file-system effects are modelled as returned values.
-/

/-! ## Artifact naming convention (audio_generator.py line 94, txt2slides.py line 188) -/

/-- Decimal digit characters of a natural number, most significant first,
computed with a fuel argument so that the definition reduces by `rfl`.
`fuel` bounds the number of digits; `natDigits` always supplies enough. -/
def natDigitsAux : Nat → Nat → List Char
  | 0, _ => []
  | fuel + 1, n =>
    if n < 10 then [Char.ofNat (48 + n)]
    else natDigitsAux fuel (n / 10) ++ [Char.ofNat (48 + n % 10)]

/-- Decimal digit characters of a natural number, most significant first
(the digits of Python `str(n)` for `n ≥ 0`). -/
def natDigits (n : Nat) : List Char := natDigitsAux (n + 1) n

/-- Decimal rendering of a natural number as a string. -/
def natStr (n : Nat) : String := String.mk (natDigits n)

/-- Python `f"{n:02d}"`: decimal digits left-padded with `'0'` to a minimum
width of two characters. -/
def pad2 (n : Nat) : List Char :=
  if n < 10 then '0' :: natDigits n else natDigits n

/-- Audio filename for a slide number, from
`audio_file_path = audio_dir / f"slide{slide_num:02d}.wav"`
(`audio_generator.py` line 94; identical in `txt2slides.py` line 188). -/
def slideWavChars (n : Nat) : List Char :=
  "slide".data ++ pad2 n ++ ".wav".data

/-- Audio filename for a slide number as a string. -/
def slideWavName (n : Nat) : String := String.mk (slideWavChars n)

/-- ASCII/code-point lexicographic strict order on character lists: the
order used by Python `sorted` on the filename strings. -/
def lexLt : List Char → List Char → Bool
  | [], [] => false
  | [], _ :: _ => true
  | _ :: _, [] => false
  | a :: as, b :: bs =>
    if a.toNat < b.toNat then true
    else if b.toNat < a.toNat then false
    else lexLt as bs

/-! ## Video assembly (video_creator.py, create_video)

The ffmpeg/ffprobe subprocess collaborators are modelled as oracles:
`standardizeOk i` is the exit status of the audio-standardization command
for the i-th sorted audio file, `duration i` the parsed ffprobe duration of
the i-th standardized file (`none` models `subprocess.check_output` or
`float(...)` raising), `clipOk i` the exit status of the per-slide clip
command, and `concatOk` the exit status of the final concatenation. -/

structure FfmpegEnv where
  standardizeOk : Nat → Bool
  duration : Nat → Option ℚ
  clipOk : Nat → Bool
  concatOk : Bool

/-- Per-slide clip construction loop of `create_video` (video_creator.py
lines 102-162), over the list of 0-based audio indices: an index with no
PNG at the same position is skipped with a warning; otherwise a failed
ffprobe call or clip command raises. Returns the pair of (indices with a
clip built, in order; skipped indices). -/
def clipLoop (env : FfmpegEnv) (pngCount : Nat) : List Nat → Except String (List Nat × List Nat)
  | [] => .ok ([], [])
  | i :: rest =>
    if pngCount ≤ i then
      (clipLoop env pngCount rest).map (fun p => (p.1, i :: p.2))
    else
      match env.duration i with
      | none => .error "ffprobe failed"
      | some _ =>
        if env.clipOk i then
          (clipLoop env pngCount rest).map (fun p => (i :: p.1, p.2))
        else .error "FFmpeg video clip creation failed"

/-- Body of `create_video` inside the `try` block (video_creator.py lines
41-211): any raised error is `Except.error`; `.ok none` is the explicit
`return None` when no clips were built; `.ok (some (path, clips))` is the
successful return, where `clips` is exactly the list of audio indices whose
per-slide clip was written into the concatenation list, in order. -/
def create_video_body (framesDirExists : Bool) (pngFiles audioFiles : List String)
    (env : FfmpegEnv) (outputPath : String) : Except String (Option (String × List Nat)) :=
  if ¬framesDirExists then .error "Frames directory does not exist"
  else if pngFiles.isEmpty then .error "No PNG files found in frames directory"
  else if audioFiles.isEmpty then .error "No audio files found in audio directory"
  else if ¬((List.range audioFiles.length).all env.standardizeOk) then
    .error "FFmpeg audio preprocessing failed"
  else
    match clipLoop env pngFiles.length (List.range audioFiles.length) with
    | .error e => .error e
    | .ok (clips, _) =>
      if clips.isEmpty then .ok none
      else if env.concatOk then .ok (some (outputPath, clips))
      else .error "FFmpeg video concatenation failed"

/-- The function `create_video` as seen by its caller, given that ffmpeg was
found: the `except Exception` clause turns every raised error into `None`
and the `finally` clause removes the scoped temporary directory on every
path. The second component records that the temporary workspace was
deleted before returning. -/
def create_video (framesDirExists : Bool) (pngFiles audioFiles : List String)
    (env : FfmpegEnv) (outputPath : String) : Option (String × List Nat) × Bool :=
  (match create_video_body framesDirExists pngFiles audioFiles env outputPath with
   | .ok r => r
   | .error _ => none,
   true)

/-! ## JSON repair pass (llm_processor.py lines 32-45; identical in txt2slides.py lines 149-162)

`fix_json_newlines` applies
`re.sub(r'"((?:\\.|[^"\\])*)"', m ↦ m.group(0).replace('\n', '\\n'), s, flags=re.DOTALL)`.
The regex consumes one JSON string literal at a time: from an opening
quote it greedily eats escape pairs and non-quote characters up to the
next closing quote; if no closing quote is reachable the scan fails and no
later starting position inside the tail can match (every later quote sits
behind a backslash), so the tail is left verbatim. The replacement
rewrites every raw newline inside the matched literal (quotes included) to
the two characters backslash-n. `fixChars` implements exactly that. -/

/-- Scan of a string-literal body after the opening quote: consume escape
pairs and ordinary characters until the closing quote; `none` when the end
of input is reached first. The flag records whether the previous character
was an unconsumed backslash. Returns (consumed body, rest after the
closing quote). -/
def scanLit : Bool → List Char → Option (List Char × List Char)
  | _, [] => none
  | true, d :: rest => (scanLit false rest).map (fun p => (d :: p.1, p.2))
  | false, c :: rest =>
    if c = '"' then some ([], rest)
    else if c = '\\' then (scanLit true rest).map (fun p => (c :: p.1, p.2))
    else (scanLit false rest).map (fun p => (c :: p.1, p.2))

/-- Scan for the closing quote of a string literal from just after its
opening quote. -/
def scanLiteral : List Char → Option (List Char × List Char) := scanLit false

theorem scanLit_sound : ∀ (l : List Char) (b : Bool) (content rest : List Char),
    scanLit b l = some (content, rest) → l = content ++ '"' :: rest := by
  intro l
  induction l with
  | nil => intro b c r h; cases b <;> simp [scanLit] at h
  | cons x xs ih =>
    intro b c r h
    cases b with
    | true =>
      rw [show scanLit true (x :: xs)
            = (scanLit false xs).map (fun p => (x :: p.1, p.2)) from rfl,
          Option.map_eq_some'] at h
      obtain ⟨⟨p1, p2⟩, hp, heq⟩ := h
      cases heq
      simp [ih false p1 p2 hp]
    | false =>
      rw [show scanLit false (x :: xs)
            = (if x = '"' then some ([], xs)
               else if x = '\\' then (scanLit true xs).map (fun p => (x :: p.1, p.2))
               else (scanLit false xs).map (fun p => (x :: p.1, p.2))) from rfl] at h
      by_cases hq : x = '"'
      · rw [if_pos hq] at h
        cases h
        subst hq
        rfl
      · rw [if_neg hq] at h
        by_cases hb : x = '\\'
        · rw [if_pos hb, Option.map_eq_some'] at h
          obtain ⟨⟨p1, p2⟩, hp, heq⟩ := h
          cases heq
          simp [ih true p1 p2 hp]
        · rw [if_neg hb, Option.map_eq_some'] at h
          obtain ⟨⟨p1, p2⟩, hp, heq⟩ := h
          cases heq
          simp [ih false p1 p2 hp]

theorem scanLiteral_sound (l content rest : List Char)
    (h : scanLiteral l = some (content, rest)) : l = content ++ '"' :: rest :=
  scanLit_sound l false content rest h

theorem scanLiteral_length (l content rest : List Char)
    (h : scanLiteral l = some (content, rest)) : rest.length < l.length + 1 := by
  have := scanLiteral_sound l content rest h
  subst this
  simp
  omega

/-- Replace every raw newline character with the two-character escape
sequence backslash-n (the effect of `.replace('\n', '\\n')` on the body of
a matched string literal). -/
def escNL : List Char → List Char
  | [] => []
  | c :: r => if c = '\n' then '\\' :: 'n' :: escNL r else c :: escNL r

/-- One left-to-right pass of the repair regex over the character list:
outside string literals characters are copied; at a quote that opens a
terminated literal the literal is consumed whole, its raw newlines are
escaped, and scanning resumes after the closing quote; at a quote whose
literal never closes the regex has no further match and the tail is left
verbatim. -/
def fixChars (l : List Char) : List Char :=
  match l with
  | [] => []
  | c :: rest =>
    if c = '"' then
      match h : scanLiteral rest with
      | some (content, rest') => '"' :: (escNL content ++ '"' :: fixChars rest')
      | none => c :: rest
    else c :: fixChars rest
termination_by l.length
decreasing_by
  · simp only [List.length_cons]
    exact scanLiteral_length _ _ _ h
  · simp only [List.length_cons]
    omega

/-- The function `fix_json_newlines` (llm_processor.py lines 32-45). -/
def fix_json_newlines (s : String) : String := String.mk (fixChars s.data)

/-! ## JSON values and their renderings

To quantify over "valid JSON" inputs of the repair pass we render an
abstract JSON value either strictly (newlines inside string values escaped
as `\n` — valid JSON) or defectively (quotes and backslashes escaped but
newlines left as raw characters — the malformed output the upstream model
emits). -/

mutual
inductive Json where
  | null : Json
  | jbool (b : Bool) : Json
  | num (n : Nat) : Json
  | str (s : List Char) : Json
  | arr (xs : JsonArr) : Json
  | obj (xs : JsonObj) : Json
inductive JsonArr where
  | anil : JsonArr
  | acons (hd : Json) (tl : JsonArr) : JsonArr
inductive JsonObj where
  | onil : JsonObj
  | ocons (key : List Char) (val : Json) (tl : JsonObj) : JsonObj
end

/-- Strict escaping of one character inside a JSON string literal. -/
def escChar (c : Char) : List Char :=
  if c = '"' then ['\\', '"']
  else if c = '\\' then ['\\', '\\']
  else if c = '\n' then ['\\', 'n']
  else [c]

/-- Defective escaping: quotes and backslashes escaped, raw newlines kept. -/
def escCharRaw (c : Char) : List Char :=
  if c = '"' then ['\\', '"']
  else if c = '\\' then ['\\', '\\']
  else [c]

/-- Escape every character of a string body with `esc`. -/
def escList (esc : Char → List Char) : List Char → List Char
  | [] => []
  | c :: r => esc c ++ escList esc r

/-- Shape invariant shared by both escaping functions: each character maps
either to an escape pair or to itself, the latter only when it is neither
a quote nor a backslash. -/
def EscOk (esc : Char → List Char) : Prop :=
  ∀ c, (∃ d, esc c = ['\\', d]) ∨ (esc c = [c] ∧ c ≠ '"' ∧ c ≠ '\\')

/-- Opening curly brace character. -/
def braceL : Char := Char.ofNat 123

/-- Closing curly brace character. -/
def braceR : Char := Char.ofNat 125

mutual
def encJson (esc : Char → List Char) : Json → List Char
  | .null => "null".data
  | .jbool true => "true".data
  | .jbool false => "false".data
  | .num n => natDigits n
  | .str s => '"' :: (escList esc s ++ ['"'])
  | .arr xs => '[' :: (encArr esc xs ++ [']'])
  | .obj xs => braceL :: (encObj esc xs ++ [braceR])
def encArr (esc : Char → List Char) : JsonArr → List Char
  | .anil => []
  | .acons h t =>
    encJson esc h ++ ((match t with | .anil => [] | .acons _ _ => [',']) ++ encArr esc t)
def encObj (esc : Char → List Char) : JsonObj → List Char
  | .onil => []
  | .ocons k v t =>
    ('"' :: (escList esc k ++ ['"'])) ++ (':' :: encJson esc v) ++
      ((match t with | .onil => [] | .ocons _ _ _ => [',']) ++ encObj esc t)
end

/-- Valid JSON rendering of a value (strict escaping everywhere). -/
def jsonRender (j : Json) : String := String.mk (encJson escChar j)

/-- Defective rendering: identical except that newline characters inside
string literals are emitted raw — the only defect. -/
def jsonRenderRaw (j : Json) : String := String.mk (encJson escCharRaw j)

/-- Decoder for the body of a JSON string literal as produced here: an
escape pair `\n` decodes to a newline, `\"` and `\\` to the escaped
character; other characters decode to themselves. -/
def unescChars : List Char → List Char
  | [] => []
  | c :: r =>
    if c = '\\' then
      match r with
      | [] => []
      | d :: r2 => (if d = 'n' then '\n' else d) :: unescChars r2
    else c :: unescChars r

/-! ## Figure-to-slide matching fallback (llm_processor.py lines 80-198)

Python `str.lower`, `str.split()`, `str.isalnum` are modelled
character-wise; the trailing `.strip()` in `remove_stop_words` is a no-op
because alphanumeric characters are never whitespace. -/

/-- Character-wise lowercasing (Python `str.lower()`). -/
def pyLower (s : String) : String := String.mk (s.data.map Char.toLower)

/-- Accumulator pass behind `pySplit`: group maximal nonwhitespace runs. -/
def splitWsAux : List Char → List Char → List (List Char)
  | [], acc => if acc.isEmpty then [] else [acc.reverse]
  | c :: rest, acc =>
    if c.isWhitespace then
      if acc.isEmpty then splitWsAux rest [] else acc.reverse :: splitWsAux rest []
    else splitWsAux rest (c :: acc)

/-- Python `str.split()` with no argument: split on whitespace runs,
discarding empty pieces. -/
def pySplit (s : String) : List String := (splitWsAux s.data []).map String.mk

/-- The stop-word set of `remove_stop_words` (llm_processor.py lines 84-94). -/
def stopWords : List String :=
  ["the", "a", "an", "is", "are", "was", "were", "be", "been", "being",
   "have", "has", "had", "do", "does", "did", "will", "would", "could", "should",
   "may", "might", "must", "can", "to", "of", "in", "on", "at", "by", "for",
   "with", "without", "through", "during", "before", "after", "above", "below",
   "up", "down", "out", "off", "over", "under", "again", "further", "then",
   "once", "here", "there", "when", "where", "why", "how", "all", "any", "both",
   "each", "few", "more", "most", "other", "some", "such", "no", "nor", "not",
   "only", "own", "same", "so", "than", "too", "very", "just", "now", "and",
   "but", "or", "as", "if", "because", "while", "this", "that", "these", "those"]

/-- Keep only the alphanumeric characters of a word
(`''.join(c for c in word if c.isalnum())`). -/
def cleanWord (w : String) : String := String.mk (w.data.filter Char.isAlphanum)

/-- The function `remove_stop_words` (llm_processor.py lines 80-107). -/
def remove_stop_words (text : String) : List String :=
  (pySplit (pyLower text)).filterMap (fun word =>
    let clean_word := cleanWord word
    if clean_word ≠ "" ∧ clean_word ∉ stopWords ∧ 2 < clean_word.length
    then some clean_word else none)

/-- The set of meaningful words of a text (`set(remove_stop_words(text))`). -/
def wordSet (text : String) : Finset String := (remove_stop_words text).toFinset

/-- The function `calculate_text_similarity` (llm_processor.py lines
109-132), over exact rationals in place of Python floats. -/
def calculate_text_similarity (text1 text2 : String) : ℚ :=
  let words1 := wordSet text1
  let words2 := wordSet text2
  if words1 = ∅ ∨ words2 = ∅ then 0
  else
    let inter := (words1 ∩ words2).card
    let union := (words1 ∪ words2).card
    if union = 0 then 0
    else
      let jaccard_score : ℚ := (inter : ℚ) / (union : ℚ)
      let overlap_score : ℚ := (inter : ℚ) / (words1.card : ℚ)
      jaccard_score * 0.6 + overlap_score * 0.4

/-- Substring test on character lists (Python `needle in hay`). -/
def substrB (needle hay : List Char) : Bool :=
  hay.tails.any (fun t => needle.isPrefixOf t)

/-- Substring test on strings. -/
def pyContains (needle hay : String) : Bool := substrB needle.data hay.data

/-- A slide record as read from the plan JSON; `none` models a missing
key (`slide.get(k, default)` is `Option.getD`). -/
structure Slide where
  slideNumber : Option Nat
  title : Option String
  content : Option String
  audio : Option String
deriving DecidableEq, Repr, Inhabited

/-- A figure record from the figures metadata JSON. -/
structure Figure where
  title : Option String
  caption : Option String
  markdown_path : Option String
deriving DecidableEq, Repr, Inhabited

/-- Combined slide text `f"{title} {content} {audio}"` (llm_processor.py
line 149). -/
def slideText (s : Slide) : String :=
  (s.title.getD "") ++ " " ++ (s.content.getD "") ++ " " ++ (s.audio.getD "")

/-- Combined figure text `f"{fig_title} {fig_caption}"` (llm_processor.py
line 160). -/
def figureText (f : Figure) : String :=
  (f.title.getD "") ++ " " ++ (f.caption.getD "")

/-- Score of one (slide, figure) pair: text similarity plus the flat `+0.5`
bonus when the lowercased slide text literally mentions `figure N` / `fig N`
for this figure's 1-based number (llm_processor.py lines 163-167). -/
def figureScore (st : String) (f : Figure) (figNum : Nat) : ℚ :=
  calculate_text_similarity st (figureText f) +
    (if pyContains ("figure " ++ natStr figNum) (pyLower st)
        || pyContains ("fig " ++ natStr figNum) (pyLower st)
     then (0.5 : ℚ) else 0)

/-- First-maximal figure by score, as computed by
`max(figure_scores.items(), key=lambda x: x[1])` over the insertion-ordered
dict: a later figure replaces the current best only when strictly better.
Returns the 1-based figure number and its score. -/
def bestFigure (st : String) (figures_data : List Figure) : Option (Nat × ℚ) :=
  figures_data.enum.foldl
    (fun acc p =>
      let sc := figureScore st p.2 (p.1 + 1)
      match acc with
      | none => some (p.1 + 1, sc)
      | some (bn, bs) => if bs < sc then some (p.1 + 1, sc) else some (bn, bs))
    none

/-- Per-slide body of the loop in `match_figures_to_slides`
(llm_processor.py lines 143-196): append the best figure's Markdown image
reference to the slide content when its score exceeds 0.1 and it has a
non-empty `markdown_path`. -/
def assignFigureToSlide (figures_data : List Figure) (slide : Slide) : Slide :=
  match bestFigure (slideText slide) figures_data with
  | none => slide
  | some (fig_idx, score) =>
    if (0.1 : ℚ) < score then
      let figure := figures_data.getD (fig_idx - 1) default
      let fig_title := figure.title.getD ("Figure " ++ natStr fig_idx)
      let path := figure.markdown_path.getD ""
      if path ≠ "" then
        let figure_markdown := "![" ++ fig_title ++ "](" ++ path ++ ")"
        let current_content := slide.content.getD ""
        { slide with content := some (current_content ++ "\n\n" ++ figure_markdown) }
      else slide
    else slide

/-- Markdown image reference for a figure with 1-based number `n`, as
built at llm_processor.py lines 181-189: `![{fig_title}]({path})` with the
title defaulting to `Figure n`. -/
def figureMarkdown (f : Figure) (n : Nat) : String :=
  "![" ++ f.title.getD ("Figure " ++ natStr n) ++ "](" ++ f.markdown_path.getD "" ++ ")"

/-- The function `match_figures_to_slides` (llm_processor.py lines 134-198). -/
def match_figures_to_slides (slides : List Slide) (figures_data : List Figure) :
    List Slide :=
  if figures_data.isEmpty ∨ slides.isEmpty then slides
  else slides.map (assignFigureToSlide figures_data)

/-- Jaccard similarity of two word sets, written as in the specification
(`|intersection| / |union|`; division by zero yields 0 in ℚ). -/
def jaccardQ (w1 w2 : Finset String) : ℚ :=
  ((w1 ∩ w2).card : ℚ) / ((w1 ∪ w2).card : ℚ)

/-- Overlap score of two word sets, written as in the specification
(`|intersection| / |slide_words|`). -/
def overlapQ (w1 w2 : Finset String) : ℚ :=
  ((w1 ∩ w2).card : ℚ) / (w1.card : ℚ)

/-- Specification-side bonus condition: the lowercased slide text literally
contains `figure N` or `fig N` for the figure's 1-based number `N`. -/
def mentionsFigure (st : String) (num : Nat) : Bool :=
  pyContains ("figure " ++ natStr num) (pyLower st) ||
    pyContains ("fig " ++ natStr num) (pyLower st)

/-- Slide with the word bag `{figure}` and an explicit `figure 1` mention,
but no meaningful word in common with `cexFigure`. -/
def cexSlide : Slide := ⟨none, some "figure 1", some "", none⟩

/-- Figure with the word bag `{zebra}`, disjoint from `cexSlide`'s. -/
def cexFigure : Figure := ⟨some "zebra", none, some "/tmp/fig1.png"⟩

/-! ## Narration synthesis (audio_generator.py lines 48-101 and
txt2slides.py lines 164-194)

The TTS collaborator is an oracle `tts : Nat → Except String Unit` indexed
by the 0-based position in the slide list; `.error` models
`client.text_to_speech.convert` raising. The returned list is the list of
audio filenames written, in order. -/

/-- Iteration of `generate_audio` (audio_generator.py lines 76-96): the
whole loop runs inside one `try`, so a raised TTS error aborts it and is
re-raised as `Exception(f"Error generating audio: ...")`. -/
def genAudioLoop (tts : Nat → Except String Unit) :
    Nat → List Slide → List String → Except String (List String)
  | _, [], acc => .ok acc
  | i, s :: rest, acc =>
    let slide_num := s.slideNumber.getD (i + 1)
    if s.audio.getD "" = "" then genAudioLoop tts (i + 1) rest acc
    else
      match tts i with
      | .error e => .error ("Error generating audio: " ++ e)
      | .ok _ => genAudioLoop tts (i + 1) rest (acc ++ [slideWavName slide_num])

/-- The function `generate_audio` (audio_generator.py lines 48-101): raises
`ValueError` before iterating when the API key is unset or empty. -/
def generate_audio (apiKey : Option String) (slides : List Slide)
    (tts : Nat → Except String Unit) : Except String (List String) :=
  if apiKey.getD "" = "" then .error "SARVAM_API_KEY environment variable not set"
  else genAudioLoop tts 0 slides []

/-- Iteration of `generate_audio_files` (txt2slides.py lines 170-193): each
slide's TTS call sits in its own `try/except`, so a failure is logged and
that slide alone is skipped. -/
def genAudioFilesLoop (tts : Nat → Except String Unit) : Nat → List Slide → List String
  | _, [] => []
  | i, s :: rest =>
    let slide_num := s.slideNumber.getD (i + 1)
    if s.audio.getD "" = "" then genAudioFilesLoop tts (i + 1) rest
    else
      match tts i with
      | .error _ => genAudioFilesLoop tts (i + 1) rest
      | .ok _ => slideWavName slide_num :: genAudioFilesLoop tts (i + 1) rest

/-- The function `generate_audio_files` (txt2slides.py lines 164-194). -/
def generate_audio_files (slides : List Slide) (tts : Nat → Except String Unit) :
    List String :=
  genAudioFilesLoop tts 0 slides

/-- Specification-side description of per-slide narration synthesis with
partial-failure tolerance: one audio file per slide with non-empty
narration whose synthesis succeeded, in slide order. -/
def expectedAudioFiles (slides : List Slide) (tts : Nat → Except String Unit) :
    List String :=
  slides.enum.filterMap (fun p =>
    if p.2.audio.getD "" = "" then none
    else
      match tts p.1 with
      | .error _ => none
      | .ok _ => some (slideWavName (p.2.slideNumber.getD (p.1 + 1))))

/-- Two slides with non-empty narration, for exercising a mid-run TTS
failure. -/
def cexAudioSlides : List Slide :=
  [⟨none, none, none, some "hi"⟩, ⟨none, none, none, some "yo"⟩]

/-- TTS oracle that fails on the first slide only. -/
def cexTts : Nat → Except String Unit :=
  fun i => if i = 0 then .error "boom" else .ok ()

/-! ## Content planning (llm_processor.py, generate_slides_content,
lines 200-431)

The LLM collaborator is an oracle: `resp i` is the outcome of the chunk-`i`
request (`.error` models `call_ollama_llm` raising, `.ok []` its falsy
return) and `summaryResp` the outcome of the single summary request. The
figure post-processing after truncation rewrites slide contents through
`match_figures_to_slides`, which maps the list in place and never changes
its length, so it is omitted from the slide-count model; file I/O is
likewise omitted. -/

/-- Renumber-and-append loop body (llm_processor.py lines 343-348): each
received slide gets `slide["slide number"] = slide_counter` and is appended. -/
def appendRenumber (acc : List Slide) (counter : Nat) : List Slide → List Slide × Nat
  | [] => (acc, counter)
  | s :: rest => appendRenumber (acc ++ [{ s with slideNumber := some counter }]) (counter + 1) rest

/-- Chunk loop of `generate_slides_content` (llm_processor.py lines
297-360) over the remaining chunk indices: the last chunk requests all
remaining slides, others `min(slides_per_chunk, remaining)`; a nonpositive
request breaks; an exception continues with the next chunk; a falsy
response aborts the whole function (`return None`). -/
def chunkLoop (resp : Nat → Except Unit (List Slide)) (nChunks slides_per_chunk : Nat) :
    List Nat → Nat → Int → List Slide → Option (List Slide × Nat)
  | [], counter, _, acc => some (acc, counter)
  | i :: is, counter, remaining, acc =>
    let chunk_slides : Int :=
      if i = nChunks - 1 then remaining else min (slides_per_chunk : Int) remaining
    if chunk_slides ≤ 0 then some (acc, counter)
    else
      match resp i with
      | .error _ => chunkLoop resp nChunks slides_per_chunk is counter remaining acc
      | .ok [] => none
      | .ok l =>
        let p := appendRenumber acc counter l
        chunkLoop resp nChunks slides_per_chunk is p.2 (remaining - (l.length : Int)) p.1

/-- Slide-plan computation of `generate_slides_content` (llm_processor.py
lines 273-384): chunking bookkeeping, per-chunk requests, the single
summary-fill request when the total falls short of `max_slides`, and final
truncation. `none` models the `return None` abort and the
`ZeroDivisionError` of `max_slides // 0` on an empty chunk list. -/
def generate_slides_content_core (chunks : List String) (max_slides : Nat)
    (resp : Nat → Except Unit (List Slide)) (summaryResp : Except Unit (List Slide)) :
    Option (List Slide) :=
  if chunks.isEmpty then none
  else
    let slides_per_chunk := max 1 (max_slides / chunks.length)
    match chunkLoop resp chunks.length slides_per_chunk
        (List.range chunks.length) 1 (max_slides : Int) [] with
    | none => none
    | some (all_slides, counter) =>
      let all_slides2 :=
        if all_slides.length < max_slides then
          match summaryResp with
          | .ok l => (appendRenumber all_slides counter l).1
          | .error _ => all_slides
        else all_slides
      some (if max_slides < all_slides2.length
            then all_slides2.take max_slides else all_slides2)

/-- LLM oracle for which chunk 0 yields three slides and every other
request raises. -/
def cexResp : Nat → Except Unit (List Slide) :=
  fun i => if i = 0 then .ok [default, default, default] else .error ()

/-! ## Retrying Gemini client (extract_images_llm.py, analyze_image_with_gemini,
lines 121-161)

The Gemini collaborator is an oracle `resp : Nat → ApiResp` indexed by the
attempt number. On a successful call the function always returns (its JSON
post-processing catches every decode error and falls back to an empty
figure dict), so success is modelled as an immediate return carrying the
response text. The model returns (outcome, the sleeps performed in order,
the number of API calls made). -/

inductive ApiResp where
  | ok (text : String) : ApiResp
  | exn (msg : String) : ApiResp

/-- Python `"429" in str(e)`: the transient/rate-limit test. -/
def is429 (msg : String) : Bool := substrB "429".data msg.data

/-- Retry loop of `analyze_image_with_gemini` with `left` iterations
remaining out of `maxRetries` total; `attempt = maxRetries - left` is the
current 0-based attempt. A transient error before the last attempt sleeps
`base * 2 ^ attempt` and retries; anything else returns immediately. -/
def analyzeRetryAux (resp : Nat → ApiResp) (maxRetries : Nat) (base : ℚ) :
    Nat → Nat → Option (Nat × String) × List ℚ × Nat
  | 0, _ => (none, [], 0)
  | left + 1, attempt =>
    match resp attempt with
    | .ok t => (some (attempt, t), [], 1)
    | .exn m =>
      if is429 m ∧ attempt < maxRetries - 1 then
        let r := analyzeRetryAux resp maxRetries base left (attempt + 1)
        (r.1, (base * 2 ^ attempt) :: r.2.1, r.2.2 + 1)
      else (none, [], 1)

/-- The retry behaviour of `analyze_image_with_gemini` (extract_images_llm.py
lines 121-161). -/
def analyze_image_with_gemini (resp : Nat → ApiResp) (maxRetries : Nat) (base : ℚ) :
    Option (Nat × String) × List ℚ × Nat :=
  analyzeRetryAux resp maxRetries base maxRetries 0

/-! ## Mistral extraction cache (mistral_cache.py lines 15-24,
mistral_unified_extractor.py lines 29-117)

`MistralCache._lock` serializes `get_or_create`, so the cache is modelled
as a sequential state transformer; extractor objects are identified by the
numeric id under which they were inserted. `process_pdf`'s collaborators
(API-key presence, input-file validation, the OCR subprocess, the output
parsing) are boolean oracles; `ocrCalls` counts OCR submissions. -/

/-- Association-list lookup for the cache dictionary. -/
def findEntry : List (String × Nat) → String → Option Nat
  | [], _ => none
  | (k, v) :: rest, key => if k = key then some v else findEntry rest key

structure CacheState where
  entries : List (String × Nat)
  nextId : Nat
deriving DecidableEq, Repr

/-- The method `MistralCache.get_or_create` (mistral_cache.py lines 15-24):
key is the resolved path; an existing entry is returned as is, otherwise a
fresh extractor is created and cached. -/
def get_or_create (resolve : String → String) (st : CacheState) (pdf_path : String) :
    Nat × CacheState :=
  let pdf_key := resolve pdf_path
  match findEntry st.entries pdf_key with
  | some i => (i, st)
  | none => (st.nextId, ⟨st.entries ++ [(pdf_key, st.nextId)], st.nextId + 1⟩)

structure ExtractorState where
  processed : Bool
  ocrCalls : Nat
deriving DecidableEq, Repr

structure OcrEnv where
  apiKeyOk : Bool
  fileOk : Bool
  runOk : Bool
  extractOk : Bool

/-- The method `MistralExtractor.process_pdf` (mistral_unified_extractor.py
lines 29-117): an already-processed extractor returns immediately; the
API-key and input-file checks precede the OCR submission; `_processed` is
set only after the subprocess and both extraction passes succeed. -/
def process_pdf (env : OcrEnv) (s : ExtractorState) : ExtractorState × Except String Unit :=
  if s.processed then (s, .ok ())
  else if ¬env.apiKeyOk then (s, .error "MISTRAL_API_KEY environment variable is not set")
  else if ¬env.fileOk then (s, .error "PDF file does not exist or is not accessible")
  else
    let s1 := { s with ocrCalls := s.ocrCalls + 1 }
    if ¬env.runOk then (s1, .error "Mistral OCR extraction failed")
    else if ¬env.extractOk then (s1, .error "Error processing PDF with Mistral OCR")
    else ({ s1 with processed := true }, .ok ())

/-! # Theorems -/

/-! ## C1: filename ordering -/

/-- C1 counterexample: the naming convention pads to only two digits, so
already at slide numbers 99 < 100 ≤ 999 the ASCII lexicographic order of
the generated audio filenames (`slide99.wav` vs `slide100.wav`) disagrees
with the numeric slide order, refuting the claim for N up to 999. -/
theorem C1_counterexample :
    ¬ (∀ a b : Nat, 1 ≤ a → a < b → b ≤ 999 →
        lexLt (slideWavChars a) (slideWavChars b) = true) := by
  intro h
  have h99 := h 99 100 (by decide) (by decide) (by decide)
  exact absurd h99 (by decide)

/-- C1 (amended): for slide numbers 1 ≤ a < b ≤ 99 the audio filenames
produced by `f"slide{n:02d}.wav"` sort in ASCII lexicographic order
identically to the numeric slide order; the two-digit zero padding
guarantees this only up to 99. -/
theorem C1_lex_order_matches_numeric_upto_99 (a b : Nat)
    (h1 : 1 ≤ a) (h2 : a < b) (h3 : b ≤ 99) :
    lexLt (slideWavChars a) (slideWavChars b) = true := by
  have key : ∀ y, y < 100 → ∀ x, x < y → 1 ≤ x →
      lexLt (slideWavChars x) (slideWavChars y) = true := by decide
  exact key b (by omega) a h2 h1

/-- C1 witness: the amended ordering theorem applied at 5 < 13. -/
theorem C1_witness : lexLt (slideWavChars 5) (slideWavChars 13) = true :=
  C1_lex_order_matches_numeric_upto_99 5 13 (by decide) (by decide) (by decide)

/-! ## C8: retry loop with exponential backoff -/

theorem analyzeRetryAux_transient (resp : Nat → ApiResp) (maxRetries : Nat) (base : ℚ) :
    ∀ (left attempt : Nat), attempt + left = maxRetries →
    (∀ i, attempt ≤ i → i < maxRetries → ∃ m, resp i = ApiResp.exn m ∧ is429 m = true) →
    analyzeRetryAux resp maxRetries base left attempt =
      (none, (List.range' attempt (maxRetries - 1 - attempt)).map (fun i => base * 2 ^ i), left) := by
  intro left
  induction left with
  | zero =>
    intro attempt hsum _
    have hz : maxRetries - 1 - attempt = 0 := by omega
    simp [analyzeRetryAux, hz]
  | succ n ih =>
    intro attempt hsum htr
    obtain ⟨m, hm, h429⟩ := htr attempt (le_refl _) (by omega)
    by_cases hlast : attempt < maxRetries - 1
    · have hrec := ih (attempt + 1) (by omega) (fun i hi hlt => htr i (by omega) hlt)
      have hn : maxRetries - 1 - attempt = (maxRetries - 1 - (attempt + 1)) + 1 := by omega
      rw [hn]
      simp [analyzeRetryAux, hm, h429, hlast, hrec, List.range'_succ]
    · have hn0 : n = 0 := by omega
      subst hn0
      have hz : maxRetries - 1 - attempt = 0 := by omega
      simp [analyzeRetryAux, hm, h429, hlast, hz]

theorem analyzeRetryAux_calls_le (resp : Nat → ApiResp) (maxRetries : Nat) (base : ℚ) :
    ∀ left attempt, (analyzeRetryAux resp maxRetries base left attempt).2.2 ≤ left := by
  intro left
  induction left with
  | zero => intro attempt; simp [analyzeRetryAux]
  | succ n ih =>
    intro attempt
    cases hr : resp attempt with
    | ok t => simp [analyzeRetryAux, hr]
    | exn m =>
      by_cases h429 : is429 m = true
      · by_cases hlt : attempt < maxRetries - 1
        · have hrec := ih (attempt + 1)
          simp only [analyzeRetryAux, hr]
          rw [if_pos ⟨h429, hlt⟩]
          simpa using hrec
        · simp only [analyzeRetryAux, hr]
          rw [if_neg (fun hcon => hlt hcon.2)]
          simp
      · simp only [analyzeRetryAux, hr]
        rw [if_neg (fun hcon => h429 hcon.1)]
        simp

/-- C8: the retrying Gemini client sleeps `base * 2 ^ attempt` before retry
attempt `attempt + 1` when the failure carries a 429 status, makes at most
the configured `maxRetries` API calls in every run (uniformly transient
failures exhaust exactly `maxRetries` calls with sleeps
`base * 2^0, …, base * 2^(maxRetries-2)`), and a non-transient failure on
the first attempt terminates immediately after one call with no sleep and
no retry. -/
theorem C8_retry_backoff (resp : Nat → ApiResp) (maxRetries : Nat) (base : ℚ) :
    ((∀ i, i < maxRetries → ∃ m, resp i = ApiResp.exn m ∧ is429 m = true) →
      analyze_image_with_gemini resp maxRetries base =
        (none, (List.range (maxRetries - 1)).map (fun i => base * 2 ^ i), maxRetries)) ∧
    (∀ m, resp 0 = ApiResp.exn m → is429 m = false → 1 ≤ maxRetries →
      analyze_image_with_gemini resp maxRetries base = (none, [], 1)) ∧
    (analyze_image_with_gemini resp maxRetries base).2.2 ≤ maxRetries := by
  refine ⟨?_, ?_, ?_⟩
  · intro htr
    have h := analyzeRetryAux_transient resp maxRetries base maxRetries 0 (by omega)
      (fun i _ hlt => htr i hlt)
    rw [analyze_image_with_gemini, h, List.range_eq_range']
    simp
  · intro m hm h429 hge
    obtain ⟨k, rfl⟩ : ∃ k, maxRetries = k + 1 := ⟨maxRetries - 1, by omega⟩
    simp [analyze_image_with_gemini, analyzeRetryAux, hm, h429]
  · exact analyzeRetryAux_calls_le resp maxRetries base maxRetries 0

/-- C8 witness: with 5 max retries and backoff base 2, uniformly transient
(429) failures sleep 2, 4, 8, 16 seconds and stop after 5 calls, while a
fatal failure terminates at once. -/
theorem C8_witness :
    analyze_image_with_gemini (fun _ => ApiResp.exn "got 429 quota") 5 2 =
      (none, [2, 4, 8, 16], 5) ∧
    analyze_image_with_gemini (fun _ => ApiResp.exn "401 unauthorized") 5 2 =
      (none, [], 1) := by
  constructor
  · have h := (C8_retry_backoff (fun _ => ApiResp.exn "got 429 quota") 5 2).1
      (fun i _ => ⟨"got 429 quota", rfl, by decide⟩)
    refine h.trans ?_
    norm_num [List.range_succ]
  · exact (C8_retry_backoff (fun _ => ApiResp.exn "401 unauthorized") 5 2).2.1
      "401 unauthorized" rfl (by decide) (by decide)

/-! ## C9: extraction cache -/

theorem findEntry_append_self (entries : List (String × Nat)) (key : String) (v : Nat)
    (h : findEntry entries key = none) :
    findEntry (entries ++ [(key, v)]) key = some v := by
  induction entries with
  | nil => simp [findEntry]
  | cons e rest ih =>
    obtain ⟨k, w⟩ := e
    by_cases hk : k = key
    · simp [findEntry, hk] at h
    · simp only [findEntry, List.cons_append, if_neg hk] at h ⊢
      exact ih h

/-- C9: within one run, two extraction requests whose paths resolve to the
same key return the same cached extractor id and leave the cache state
unchanged by the second call (the lock serializes the two calls, so they
are modelled sequentially); and `process_pdf` on an already-processed
extractor returns immediately with no new OCR submission (the OCR call
counter is unchanged). -/
theorem C9_cache_single_submission (resolve : String → String) (st : CacheState)
    (p q : String) (env : OcrEnv) (s : ExtractorState) :
    (resolve p = resolve q →
      (get_or_create resolve (get_or_create resolve st p).2 q).1 =
        (get_or_create resolve st p).1 ∧
      (get_or_create resolve (get_or_create resolve st p).2 q).2 =
        (get_or_create resolve st p).2) ∧
    (s.processed = true → process_pdf env s = (s, Except.ok ())) := by
  constructor
  · intro hres
    unfold get_or_create
    rw [← hres]
    cases hfind : findEntry st.entries (resolve p) with
    | some i => simp [hfind]
    | none => simp [hfind, findEntry_append_self st.entries (resolve p) st.nextId hfind]
  · intro hp
    simp [process_pdf, hp]

/-- C9 witness: the cache theorem applied to two spellings of one path and
to an already-processed extractor with one recorded OCR call. -/
theorem C9_witness :
    ((get_or_create (fun _ => "/abs/doc.pdf")
        (get_or_create (fun _ => "/abs/doc.pdf") ⟨[], 0⟩ "doc.pdf").2 "./doc.pdf").1 =
      (get_or_create (fun _ => "/abs/doc.pdf") ⟨[], 0⟩ "doc.pdf").1 ∧
     (get_or_create (fun _ => "/abs/doc.pdf")
        (get_or_create (fun _ => "/abs/doc.pdf") ⟨[], 0⟩ "doc.pdf").2 "./doc.pdf").2 =
      (get_or_create (fun _ => "/abs/doc.pdf") ⟨[], 0⟩ "doc.pdf").2) ∧
    process_pdf ⟨true, true, true, true⟩ ⟨true, 1⟩ = (⟨true, 1⟩, Except.ok ()) := by
  have h := C9_cache_single_submission (fun _ => "/abs/doc.pdf") ⟨[], 0⟩
    "doc.pdf" "./doc.pdf" ⟨true, true, true, true⟩ ⟨true, 1⟩
  exact ⟨h.1 rfl, h.2 rfl⟩

/-! ## C2: video assembly count-mismatch tolerance -/

theorem clipLoop_ok (env : FfmpegEnv) (p : Nat) :
    ∀ l : List Nat,
    (∀ i ∈ l, i < p → env.duration i ≠ none) →
    (∀ i ∈ l, i < p → env.clipOk i = true) →
    clipLoop env p l =
      Except.ok (l.filter (fun i => decide (i < p)), l.filter (fun i => decide (p ≤ i))) := by
  intro l
  induction l with
  | nil => intro _ _; simp [clipLoop]
  | cons i rest ih =>
    intro hd hc
    have ihr := ih (fun j hj hlt => hd j (List.mem_cons_of_mem _ hj) hlt)
                   (fun j hj hlt => hc j (List.mem_cons_of_mem _ hj) hlt)
    by_cases hip : p ≤ i
    · have h1 : ¬ i < p := by omega
      simp [clipLoop, hip, ihr, List.filter_cons, h1, Except.map]
    · have hlt : i < p := by omega
      obtain ⟨d, hdur⟩ :=
        Option.ne_none_iff_exists'.mp (hd i (List.mem_cons_self _ _) hlt)
      simp [clipLoop, hip, hdur, hc i (List.mem_cons_self _ _) hlt, ihr,
        List.filter_cons, hlt, Except.map]

/-- C2: whenever there are more (sorted) audio clips than frame images and
the external tool succeeds on every processed input, the clip loop builds
exactly one clip per index that has both an audio file and a frame image —
the indices below the frame count, in index order — skips every excess
audio index (recorded in the second component, each logged with a warning)
instead of aborting, and `create_video` returns the output path together
with precisely that clip list as the concatenation list. -/
theorem C2_count_mismatch_tolerance (env : FfmpegEnv) (pngFiles audioFiles : List String)
    (out : String)
    (hlt : pngFiles.length < audioFiles.length)
    (hpng : pngFiles ≠ [])
    (hstd : ∀ i, i < audioFiles.length → env.standardizeOk i = true)
    (hdur : ∀ i, i < pngFiles.length → env.duration i ≠ none)
    (hclip : ∀ i, i < pngFiles.length → env.clipOk i = true)
    (hcat : env.concatOk = true) :
    clipLoop env pngFiles.length (List.range audioFiles.length) =
      Except.ok ((List.range audioFiles.length).filter (fun i => decide (i < pngFiles.length)),
                 (List.range audioFiles.length).filter (fun i => decide (pngFiles.length ≤ i))) ∧
    create_video true pngFiles audioFiles env out =
      (some (out, (List.range audioFiles.length).filter (fun i => decide (i < pngFiles.length))),
       true) := by
  have hloop := clipLoop_ok env pngFiles.length (List.range audioFiles.length)
    (fun i _ hlt' => hdur i hlt') (fun i _ hlt' => hclip i hlt')
  refine ⟨hloop, ?_⟩
  have h0png : 0 < pngFiles.length := List.length_pos.mpr hpng
  have h0aud : 0 < audioFiles.length := by omega
  have haud : audioFiles ≠ [] := by
    intro hn; rw [hn] at h0aud; simp at h0aud
  have hstdall : (List.range audioFiles.length).all env.standardizeOk = true := by
    rw [List.all_eq_true]
    intro i hi
    exact hstd i (List.mem_range.mp hi)
  have hmem : (0 : Nat) ∈
      (List.range audioFiles.length).filter (fun i => decide (i < pngFiles.length)) := by
    rw [List.mem_filter]
    exact ⟨List.mem_range.mpr h0aud, by simpa using h0png⟩
  have hne : ((List.range audioFiles.length).filter
      (fun i => decide (i < pngFiles.length))).isEmpty = false := by
    rcases h : (List.range audioFiles.length).filter (fun i => decide (i < pngFiles.length)) with
      _ | ⟨x, xs⟩
    · rw [h] at hmem; simp at hmem
    · simp
  unfold create_video create_video_body
  simp [hpng, haud, hstdall, hloop, hne, hcat]

/-- C2 witness: with 5 audio clips, 3 frames and successful tool calls,
exactly the clips for indices 0, 1, 2 are built and concatenated. -/
theorem C2_witness :
    create_video true ["deck.001.png", "deck.002.png", "deck.003.png"]
      ["slide01.wav", "slide02.wav", "slide03.wav", "slide04.wav", "slide05.wav"]
      ⟨fun _ => true, fun _ => some 1, fun _ => true, true⟩ "video.mp4" =
      (some ("video.mp4", [0, 1, 2]), true) := by
  have h := (C2_count_mismatch_tolerance
    ⟨fun _ => true, fun _ => some 1, fun _ => true, true⟩
    ["deck.001.png", "deck.002.png", "deck.003.png"]
    ["slide01.wav", "slide02.wav", "slide03.wav", "slide04.wav", "slide05.wav"]
    "video.mp4" (by decide) (by decide) (fun i _ => rfl)
    (fun i _ => Option.some_ne_none _) (fun i _ => rfl) rfl).2
  refine h.trans ?_
  decide

/-! ## C10: create_video never raises, returns None on failure, cleans up -/

theorem create_video_some_iff (f : Bool) (p a : List String) (env : FfmpegEnv)
    (o : String) (r : String × List Nat) :
    (create_video f p a env o).1 = some r ↔
      (f = true ∧ p ≠ [] ∧ a ≠ [] ∧
       (List.range a.length).all env.standardizeOk = true ∧
       ∃ clips w, clipLoop env p.length (List.range a.length) = Except.ok (clips, w) ∧
         clips ≠ [] ∧ env.concatOk = true ∧ r = (o, clips)) := by
  unfold create_video create_video_body
  cases f with
  | false => simp
  | true =>
    by_cases hp : p.isEmpty
    · have : p = [] := by rwa [List.isEmpty_iff] at hp
      simp [hp, this]
    · have hpne : p ≠ [] := by
        intro hn; rw [hn] at hp; simp at hp
      by_cases ha : a.isEmpty
      · have : a = [] := by rwa [List.isEmpty_iff] at ha
        simp [hp, ha, this]
      · have hane : a ≠ [] := by
          intro hn; rw [hn] at ha; simp at ha
        by_cases hstd : (List.range a.length).all env.standardizeOk
        · cases hloop : clipLoop env p.length (List.range a.length) with
          | error e => simp [hp, ha, hstd, hloop, hpne, hane]
          | ok pr =>
            obtain ⟨clips, w⟩ := pr
            by_cases hcl : clips.isEmpty
            · have : clips = [] := by rwa [List.isEmpty_iff] at hcl
              subst this
              simp [hp, ha, hstd, hloop, hpne, hane]
            · have hclne : clips ≠ [] := by
                intro hn; rw [hn] at hcl; simp at hcl
              cases hcat : env.concatOk with
              | false =>
                simp [hp, ha, hstd, hloop, hcl, hcat, hpne, hane, hclne]
              | true =>
                simp [hp, ha, hstd, hloop, hcl, hcat, hpne, hane, hclne]
                exact eq_comm
        · simp [hp, ha, hstd, hpne, hane]

/-- C10: with ffmpeg found, `create_video` never propagates an exception:
the temporary workspace flag is true (deleted) on every path; each internal
failure — missing frames directory, zero frame files, zero audio files,
a failed audio-standardization command, a failed ffprobe/clip command,
zero clips built, a failed concatenation — yields `none`; and a fully
successful run yields the output path with the built clip list. -/
theorem C10_total_behaviour (f : Bool) (p a : List String) (env : FfmpegEnv) (o : String) :
    ((create_video f p a env o).2 = true) ∧
    (f = false → (create_video f p a env o).1 = none) ∧
    (p = [] → (create_video f p a env o).1 = none) ∧
    (a = [] → (create_video f p a env o).1 = none) ∧
    ((List.range a.length).all env.standardizeOk = false →
      (create_video f p a env o).1 = none) ∧
    (∀ e, clipLoop env p.length (List.range a.length) = Except.error e →
      (create_video f p a env o).1 = none) ∧
    (∀ w, clipLoop env p.length (List.range a.length) = Except.ok ([], w) →
      (create_video f p a env o).1 = none) ∧
    (env.concatOk = false → (create_video f p a env o).1 = none) ∧
    (∀ clips w, f = true → p ≠ [] → a ≠ [] →
      (List.range a.length).all env.standardizeOk = true →
      clipLoop env p.length (List.range a.length) = Except.ok (clips, w) →
      clips ≠ [] → env.concatOk = true →
      (create_video f p a env o).1 = some (o, clips)) := by
  refine ⟨rfl, ?_, ?_, ?_, ?_, ?_, ?_, ?_, ?_⟩
  · intro hf
    cases hres : (create_video f p a env o).1 with
    | none => rfl
    | some r =>
      rw [create_video_some_iff] at hres
      rw [hf] at hres
      simp at hres
  · intro hp
    cases hres : (create_video f p a env o).1 with
    | none => rfl
    | some r =>
      rw [create_video_some_iff] at hres
      exact absurd hp hres.2.1
  · intro ha
    cases hres : (create_video f p a env o).1 with
    | none => rfl
    | some r =>
      rw [create_video_some_iff] at hres
      exact absurd ha hres.2.2.1
  · intro hstd
    cases hres : (create_video f p a env o).1 with
    | none => rfl
    | some r =>
      rw [create_video_some_iff] at hres
      rw [hres.2.2.2.1] at hstd
      simp at hstd
  · intro e he
    cases hres : (create_video f p a env o).1 with
    | none => rfl
    | some r =>
      rw [create_video_some_iff] at hres
      obtain ⟨_, _, _, _, clips, w, hloop, _, _, _⟩ := hres
      rw [he] at hloop
      simp at hloop
  · intro w hw
    cases hres : (create_video f p a env o).1 with
    | none => rfl
    | some r =>
      rw [create_video_some_iff] at hres
      obtain ⟨_, _, _, _, clips, w', hloop, hcl, _, _⟩ := hres
      rw [hw] at hloop
      simp at hloop
      exact absurd hloop.1 hcl
  · intro hcat
    cases hres : (create_video f p a env o).1 with
    | none => rfl
    | some r =>
      rw [create_video_some_iff] at hres
      obtain ⟨_, _, _, _, clips, w', _, _, hcat', _⟩ := hres
      rw [hcat'] at hcat
      simp at hcat
  · intro clips w hf hp ha hstd hloop hcl hcat
    rw [create_video_some_iff]
    exact ⟨hf, hp, ha, hstd, clips, w, hloop, hcl, hcat, rfl⟩

/-- C10 witness: a successful single-slide run returns the output path with
clip list `[0]` and reports the temporary workspace deleted; a missing
frames directory yields `none`. -/
theorem C10_witness :
    (create_video true ["deck.001.png"] ["slide01.wav"]
       ⟨fun _ => true, fun _ => some 1, fun _ => true, true⟩ "o.mp4").2 = true ∧
    (create_video true ["deck.001.png"] ["slide01.wav"]
       ⟨fun _ => true, fun _ => some 1, fun _ => true, true⟩ "o.mp4").1 =
      some ("o.mp4", [0]) ∧
    (create_video false ["deck.001.png"] ["slide01.wav"]
       ⟨fun _ => true, fun _ => some 1, fun _ => true, true⟩ "o.mp4").1 = none := by
  refine ⟨(C10_total_behaviour true _ _ _ _).1, ?_, ?_⟩
  · exact (C10_total_behaviour true ["deck.001.png"] ["slide01.wav"]
      ⟨fun _ => true, fun _ => some 1, fun _ => true, true⟩ "o.mp4").2.2.2.2.2.2.2.2
      [0] [] rfl (by decide) (by decide) rfl rfl (by decide) rfl
  · exact (C10_total_behaviour false ["deck.001.png"] ["slide01.wav"]
      ⟨fun _ => true, fun _ => some 1, fun _ => true, true⟩ "o.mp4").2.1 rfl

/-! ## C6: narration synthesis failure semantics -/

/-- C6 counterexample: in `audio_generator.generate_audio` the whole slide
loop runs inside a single `try`, so when the TTS call fails for the first
slide alone the entire stage aborts with a re-raised exception — the
second slide, whose narration is non-empty and whose TTS call would have
succeeded, is never processed — contradicting the claim that a single
slide's failure is skipped and the stage continues. -/
theorem C6_counterexample :
    generate_audio (some "key") cexAudioSlides cexTts =
      Except.error "Error generating audio: boom" ∧
    cexTts 1 = Except.ok () ∧
    (cexAudioSlides.getD 1 default).audio.getD "" ≠ "" := by
  refine ⟨rfl, rfl, by decide⟩

theorem genAudioFilesLoop_eq (tts : Nat → Except String Unit) :
    ∀ (slides : List Slide) (i : Nat),
    genAudioFilesLoop tts i slides =
      (slides.enumFrom i).filterMap (fun p =>
        if p.2.audio.getD "" = "" then none
        else
          match tts p.1 with
          | .error _ => none
          | .ok _ => some (slideWavName (p.2.slideNumber.getD (p.1 + 1)))) := by
  intro slides
  induction slides with
  | nil => intro i; simp [genAudioFilesLoop]
  | cons s rest ih =>
    intro i
    by_cases hempty : s.audio.getD "" = ""
    · simp [genAudioFilesLoop, hempty, List.enumFrom, ih]
    · cases ht : tts i with
      | error e => simp [genAudioFilesLoop, hempty, ht, List.enumFrom, ih]
      | ok u => simp [genAudioFilesLoop, hempty, ht, List.enumFrom, ih]

/-- C6 (amended): the per-slide skip-and-continue semantics holds for
`txt2slides.generate_audio_files` — it always completes, producing exactly
one file per slide with non-empty narration and a successful TTS call —
while `audio_generator.generate_audio` fails before iteration when the API
credential is missing and aborts the whole stage at the first raised TTS
error. -/
theorem C6_partial_failure_semantics (slides : List Slide)
    (tts : Nat → Except String Unit) (apiKey : Option String) :
    generate_audio_files slides tts = expectedAudioFiles slides tts ∧
    (apiKey.getD "" = "" →
      generate_audio apiKey slides tts =
        Except.error "SARVAM_API_KEY environment variable not set") ∧
    (∀ i s rest acc e, s.audio.getD "" ≠ "" → tts i = Except.error e →
      genAudioLoop tts i (s :: rest) acc =
        Except.error ("Error generating audio: " ++ e)) := by
  refine ⟨?_, ?_, ?_⟩
  · rw [generate_audio_files, expectedAudioFiles, genAudioFilesLoop_eq]
    rfl
  · intro hk
    simp [generate_audio, hk]
  · intro i s rest acc e hne he
    simp [genAudioLoop, hne, he]

/-- C6 witness: on two narrated slides where the first TTS call fails, the
per-slide implementation still produces the second slide's file, and a
missing credential fails the stage up front. -/
theorem C6_witness :
    generate_audio_files cexAudioSlides cexTts = ["slide02.wav"] ∧
    generate_audio none cexAudioSlides cexTts =
      Except.error "SARVAM_API_KEY environment variable not set" := by
  have h := C6_partial_failure_semantics cexAudioSlides cexTts none
  exact ⟨h.1.trans rfl, h.2.1 rfl⟩

/-! ## C7: slide-count after summary-fill and truncation -/

/-- C7 counterexample: with one chunk yielding 3 slides against a request
of `N = 10` and a summary response of a single slide, the returned plan has
4 slides, not 10 — the single summary request cannot make up a shortfall
larger than the number of slides it returns, so the final count is not
"exactly N". -/
theorem C7_counterexample :
    Option.map List.length
      (generate_slides_content_core ["chunk"] 10 cexResp (Except.ok [default])) =
      some 4 ∧
    cexResp 0 = Except.ok [default, default, default] ∧ (4 : Nat) ≠ 10 :=
  ⟨rfl, rfl, by decide⟩

theorem truncate_length (L : List Slide) (n : Nat) :
    (if n < L.length then L.take n else L).length = min n L.length := by
  by_cases h : n < L.length
  · rw [if_pos h, List.length_take]
  · rw [if_neg h]
    omega

theorem appendRenumber_fst_length (l : List Slide) :
    ∀ (acc : List Slide) (counter : Nat),
    ((appendRenumber acc counter l).1).length = acc.length + l.length := by
  induction l with
  | nil => intro acc c; simp [appendRenumber]
  | cons s r ih =>
    intro acc c
    rw [appendRenumber, ih]
    simp
    omega

/-- C7 (amended): when the chunk loop completes (no falsy response), the
returned plan has `min N (generated + filled)` slides, where `filled` is
the size of the single summary response and is added only when the
generated total falls short of `N`: the count is never above `N`
(truncation) but equals `N` only when generated-plus-summary reaches `N`. -/
theorem C7_slide_count (chunks : List String) (max_slides : Nat)
    (resp : Nat → Except Unit (List Slide)) (summaryResp : Except Unit (List Slide))
    (all : List Slide) (counter : Nat)
    (hne : chunks ≠ [])
    (hloop : chunkLoop resp chunks.length (max 1 (max_slides / chunks.length))
        (List.range chunks.length) 1 (max_slides : Int) [] = some (all, counter)) :
    ∃ l, generate_slides_content_core chunks max_slides resp summaryResp = some l ∧
      l.length = min max_slides (all.length +
        (if all.length < max_slides then
          (match summaryResp with | .ok s => s.length | .error _ => 0) else 0)) := by
  have hek : chunks.isEmpty = false := by
    cases chunks
    · exact absurd rfl hne
    · rfl
  simp only [generate_slides_content_core, hek, Bool.false_eq_true, if_false, hloop]
  refine ⟨_, rfl, ?_⟩
  rw [truncate_length]
  congr 1
  by_cases hshort : all.length < max_slides
  · rw [if_pos hshort, if_pos hshort]
    cases summaryResp with
    | ok s => rw [appendRenumber_fst_length]
    | error u => simp
  · rw [if_neg hshort, if_neg hshort]
    omega

/-- C7 witness: one chunk yielding 3 slides, `N = 4`, summary yielding one
slide: the final plan has exactly `min 4 (3 + 1) = 4` slides. -/
theorem C7_witness :
    ∃ l, generate_slides_content_core ["chunk"] 4 cexResp (Except.ok [default]) =
      some l ∧ l.length = 4 := by
  have h := C7_slide_count ["chunk"] 4 cexResp (Except.ok [default])
    [⟨some 1, none, none, none⟩, ⟨some 2, none, none, none⟩, ⟨some 3, none, none, none⟩] 4
    (by simp) rfl
  obtain ⟨l, h1, h2⟩ := h
  exact ⟨l, h1, by simpa using h2⟩

/-! ## C4 and C5: figure-to-slide matching -/

theorem match_eq_map (slides : List Slide) (figs : List Figure) :
    match_figures_to_slides slides figs = slides.map (assignFigureToSlide figs) := by
  rw [match_figures_to_slides]
  by_cases hf : figs.isEmpty
  · have hfe : figs = [] := by rwa [List.isEmpty_iff] at hf
    subst hfe
    have hid : assignFigureToSlide [] = fun s => s := funext fun s => rfl
    simp [hid]
  · by_cases hs : slides.isEmpty
    · have hse : slides = [] := by rwa [List.isEmpty_iff] at hs
      subst hse
      simp
    · rw [if_neg]
      simp [hf, hs]

theorem similarity_formula (t1 t2 : String) :
    calculate_text_similarity t1 t2 =
      0.6 * jaccardQ (wordSet t1) (wordSet t2) +
      0.4 * overlapQ (wordSet t1) (wordSet t2) := by
  unfold calculate_text_similarity jaccardQ overlapQ
  by_cases h1 : wordSet t1 = ∅
  · rw [if_pos (Or.inl h1), h1]
    simp
  · by_cases h2 : wordSet t2 = ∅
    · rw [if_pos (Or.inr h2), h2]
      simp
    · rw [if_neg (by tauto)]
      have hu : (wordSet t1 ∪ wordSet t2).card ≠ 0 := by
        rw [Finset.card_ne_zero]
        obtain ⟨x, hx⟩ := Finset.nonempty_iff_ne_empty.mpr h1
        exact ⟨x, Finset.mem_union_left _ hx⟩
      rw [if_neg hu]
      ring

theorem figureScore_formula (st : String) (f : Figure) (num : Nat) :
    figureScore st f num =
      0.6 * jaccardQ (wordSet st) (wordSet (figureText f)) +
      0.4 * overlapQ (wordSet st) (wordSet (figureText f)) +
      (if mentionsFigure st num then (0.5 : ℚ) else 0) := by
  rw [figureScore, similarity_formula]
  rfl

theorem mem_enumFrom_spec : ∀ (l : List Figure) (k : Nat) (pr : Nat × Figure),
    pr ∈ l.enumFrom k →
    k ≤ pr.1 ∧ pr.1 < k + l.length ∧ pr.2 = l.getD (pr.1 - k) default := by
  intro l
  induction l with
  | nil => intro k pr h; simp [List.enumFrom] at h
  | cons x xs ih =>
    intro k pr h
    rcases List.mem_cons.mp h with h1 | h2
    · subst h1
      refine ⟨le_refl _, by simp, ?_⟩
      simp
    · obtain ⟨ha, hb, hc⟩ := ih (k + 1) pr h2
      refine ⟨by omega, by simp at hb ⊢; omega, ?_⟩
      rw [hc]
      have hj : pr.1 - k = (pr.1 - (k + 1)) + 1 := by omega
      rw [hj]
      rfl

theorem enumFrom_mem_of_lt : ∀ (l : List Figure) (k j : Nat), j < l.length →
    (k + j, l.getD j default) ∈ l.enumFrom k := by
  intro l
  induction l with
  | nil => intro k j h; simp at h
  | cons x xs ih =>
    intro k j h
    cases j with
    | zero => left
    | succ m =>
      have hm : m < xs.length := by simpa using h
      have := ih (k + 1) m hm
      have harith : k + (m + 1) = (k + 1) + m := by omega
      rw [harith]
      exact List.mem_cons_of_mem _ this

theorem bestFigure_go (st : String) :
    ∀ (pairs : List (Nat × Figure)) (bn : Nat) (bs : ℚ),
    ∃ n sc,
      pairs.foldl
        (fun acc p =>
          let sc := figureScore st p.2 (p.1 + 1)
          match acc with
          | none => some (p.1 + 1, sc)
          | some (bn, bs) => if bs < sc then some (p.1 + 1, sc) else some (bn, bs))
        (some (bn, bs)) = some (n, sc) ∧
      bs ≤ sc ∧
      ((n = bn ∧ sc = bs) ∨
        ∃ pr ∈ pairs, n = pr.1 + 1 ∧ sc = figureScore st pr.2 (pr.1 + 1)) ∧
      ∀ pr ∈ pairs, figureScore st pr.2 (pr.1 + 1) ≤ sc := by
  intro pairs
  induction pairs with
  | nil =>
    intro bn bs
    exact ⟨bn, bs, rfl, le_refl _, Or.inl ⟨rfl, rfl⟩, by simp⟩
  | cons pr0 rest ih =>
    intro bn bs
    obtain ⟨i, g⟩ := pr0
    by_cases hcmp : bs < figureScore st g (i + 1)
    · obtain ⟨n, sc, hfold, hle, hprov, hmax⟩ := ih (i + 1) (figureScore st g (i + 1))
      refine ⟨n, sc, ?_, ?_, ?_, ?_⟩
      · rw [List.foldl_cons]
        simpa [hcmp] using hfold
      · exact le_of_lt (lt_of_lt_of_le hcmp hle)
      · rcases hprov with ⟨hn, hsc⟩ | ⟨pr, hpr, hn, hsc⟩
        · exact Or.inr ⟨(i, g), List.mem_cons_self _ _, hn, hsc⟩
        · exact Or.inr ⟨pr, List.mem_cons_of_mem _ hpr, hn, hsc⟩
      · intro pr hpr
        rcases List.mem_cons.mp hpr with h1 | h2
        · subst h1; exact hle
        · exact hmax pr h2
    · obtain ⟨n, sc, hfold, hle, hprov, hmax⟩ := ih bn bs
      refine ⟨n, sc, ?_, hle, ?_, ?_⟩
      · rw [List.foldl_cons]
        simpa [hcmp] using hfold
      · rcases hprov with ⟨hn, hsc⟩ | ⟨pr, hpr, hn, hsc⟩
        · exact Or.inl ⟨hn, hsc⟩
        · exact Or.inr ⟨pr, List.mem_cons_of_mem _ hpr, hn, hsc⟩
      · intro pr hpr
        rcases List.mem_cons.mp hpr with h1 | h2
        · subst h1
          exact le_trans (not_lt.mp hcmp) hle
        · exact hmax pr h2

theorem bestFigure_spec (st : String) (figs : List Figure) (hne : figs ≠ []) :
    ∃ n sc, bestFigure st figs = some (n, sc) ∧
      1 ≤ n ∧ n ≤ figs.length ∧
      sc = figureScore st (figs.getD (n - 1) default) n ∧
      ∀ idx, idx < figs.length →
        figureScore st (figs.getD idx default) (idx + 1) ≤ sc := by
  obtain ⟨f, rest, rfl⟩ := List.exists_cons_of_ne_nil hne
  obtain ⟨n, sc, hfold, hle, hprov, hmax⟩ :=
    bestFigure_go st (rest.enumFrom 1) 1 (figureScore st f 1)
  refine ⟨n, sc, ?_, ?_, ?_, ?_, ?_⟩
  · rw [bestFigure]
    show List.foldl _ none (List.enumFrom 0 (f :: rest)) = _
    rw [show List.enumFrom 0 (f :: rest) = (0, f) :: List.enumFrom 1 rest from rfl,
      List.foldl_cons]
    exact hfold
  · rcases hprov with ⟨hn, _⟩ | ⟨pr, hpr, hn, _⟩
    · omega
    · have := (mem_enumFrom_spec rest 1 pr hpr).1
      omega
  · rcases hprov with ⟨hn, _⟩ | ⟨pr, hpr, hn, _⟩
    · subst hn; simp
    · obtain ⟨h1, h2, _⟩ := mem_enumFrom_spec rest 1 pr hpr
      simp only [List.length_cons]
      omega
  · rcases hprov with ⟨hn, hsc⟩ | ⟨pr, hpr, hn, hsc⟩
    · subst hn; exact hsc
    · obtain ⟨h1, h2, h3⟩ := mem_enumFrom_spec rest 1 pr hpr
      rw [hsc, h3]
      have hidx : n - 1 = (pr.1 - 1) + 1 := by omega
      rw [hidx, hn]
      rfl
  · intro idx hidx
    cases idx with
    | zero => exact hle
    | succ m =>
      have hm : m < rest.length := by simp at hidx; omega
      have hmem := enumFrom_mem_of_lt rest 1 m hm
      have := hmax (1 + m, rest.getD m default) hmem
      have harith : m + 1 + 1 = 1 + m + 1 := by omega
      rw [show (f :: rest).getD (m + 1) default = rest.getD m default from rfl, harith]
      exact this

theorem assignFigure_pos (figs : List Figure) (s : Slide) (n : Nat) (sc : ℚ)
    (hbest : bestFigure (slideText s) figs = some (n, sc))
    (hthr : (0.1 : ℚ) < sc)
    (hpath : (figs.getD (n - 1) default).markdown_path.getD "" ≠ "") :
    assignFigureToSlide figs s =
      { s with content := some ((s.content.getD "") ++ "\n\n" ++ figureMarkdown (figs.getD (n - 1) default) n) } := by
  rw [assignFigureToSlide, hbest]
  show (if (0.1 : ℚ) < sc then
      (if (figs.getD (n - 1) default).markdown_path.getD "" ≠ "" then
        { s with content := some ((s.content.getD "") ++ "\n\n" ++ ("![" ++ ((figs.getD (n - 1) default).title.getD ("Figure " ++ natStr n)) ++ "](" ++ ((figs.getD (n - 1) default).markdown_path.getD "") ++ ")")) }
      else s)
    else s) = _
  rw [if_pos hthr, if_pos hpath]
  rfl

theorem assignFigure_neg (figs : List Figure) (s : Slide) (n : Nat) (sc : ℚ)
    (hbest : bestFigure (slideText s) figs = some (n, sc))
    (hthr : ¬ (0.1 : ℚ) < sc) :
    assignFigureToSlide figs s = s := by
  rw [assignFigureToSlide, hbest]
  exact if_neg hthr

/-- C4: the fallback's pair score is exactly
`0.6 * Jaccard(slide_words, figure_words) + 0.4 * (|inter| / |slide_words|)`
over the stop-word-filtered word bags (with the empty-bag guard coinciding
with the rational convention x/0 = 0) plus a flat `+0.5` exactly when the
lowercased slide text contains `figure N` or `fig N` for the figure's
1-based number; each slide receives the (first) highest-scoring figure,
its Markdown reference appended to the content, precisely when that score
exceeds 0.1 (and the figure carries a non-empty `markdown_path`, as the
FigureSet invariant guarantees), and is left unchanged otherwise. -/
theorem C4_matching_score_and_threshold (slides : List Slide) (figs : List Figure)
    (s : Slide) (hmem : s ∈ slides) (hfigs : figs ≠ []) :
    (∀ (f : Figure) (num : Nat),
      figureScore (slideText s) f num =
        0.6 * jaccardQ (wordSet (slideText s)) (wordSet (figureText f)) +
        0.4 * overlapQ (wordSet (slideText s)) (wordSet (figureText f)) +
        (if mentionsFigure (slideText s) num then (0.5 : ℚ) else 0)) ∧
    match_figures_to_slides slides figs = slides.map (assignFigureToSlide figs) ∧
    (∃ n sc, bestFigure (slideText s) figs = some (n, sc) ∧
      1 ≤ n ∧ n ≤ figs.length ∧
      sc = figureScore (slideText s) (figs.getD (n - 1) default) n ∧
      (∀ idx, idx < figs.length →
        figureScore (slideText s) (figs.getD idx default) (idx + 1) ≤ sc) ∧
      ((0.1 : ℚ) < sc → (figs.getD (n - 1) default).markdown_path.getD "" ≠ "" →
        assignFigureToSlide figs s =
          { s with content := some ((s.content.getD "") ++ "\n\n" ++ figureMarkdown (figs.getD (n - 1) default) n) }) ∧
      (¬ (0.1 : ℚ) < sc → assignFigureToSlide figs s = s)) := by
  refine ⟨fun f num => figureScore_formula (slideText s) f num, match_eq_map slides figs, ?_⟩
  obtain ⟨n, sc, hbest, hn1, hn2, hsc, hmax⟩ := bestFigure_spec (slideText s) figs hfigs
  refine ⟨n, sc, hbest, hn1, hn2, hsc, hmax, ?_, ?_⟩
  · intro hthr hpath
    exact assignFigure_pos figs s n sc hbest hthr hpath
  · intro hthr
    exact assignFigure_neg figs s n sc hbest hthr

/-- C4 witness: the matching theorem applied to a one-slide, one-figure
instance with both hypotheses discharged concretely. -/
theorem C4_witness :
    match_figures_to_slides
      [⟨none, some "novel voltage indicator", none, some "imaging neurons"⟩]
      [⟨some "novel indicator", some "voltage imaging", some "/tmp/f.png"⟩] =
    List.map
      (assignFigureToSlide
        [⟨some "novel indicator", some "voltage imaging", some "/tmp/f.png"⟩])
      [⟨none, some "novel voltage indicator", none, some "imaging neurons"⟩] :=
  (C4_matching_score_and_threshold
    [⟨none, some "novel voltage indicator", none, some "imaging neurons"⟩]
    [⟨some "novel indicator", some "voltage imaging", some "/tmp/f.png"⟩]
    ⟨none, some "novel voltage indicator", none, some "imaging neurons"⟩
    (List.mem_singleton.mpr rfl) (by simp)).2.1

/-- C5 counterexample: `cexSlide`'s meaningful-word bag (`{figure}`) is
disjoint from `cexFigure`'s (`{zebra}`), yet the literal `figure 1` mention
adds the flat +0.5 bonus, the score 0.5 exceeds the 0.1 threshold, and the
fallback appends the figure to the slide — so a slide with zero word
overlap with every figure can still receive a figure. -/
theorem C5_counterexample :
    wordSet (slideText cexSlide) ∩ wordSet (figureText cexFigure) = ∅ ∧
    match_figures_to_slides [cexSlide] [cexFigure] ≠ [cexSlide] := by
  constructor
  · decide
  · have hint : (wordSet (slideText cexSlide) ∩ wordSet (figureText cexFigure)).card = 0 := by
      decide
    have hsim : calculate_text_similarity (slideText cexSlide) (figureText cexFigure) = 0 := by
      rw [similarity_formula, jaccardQ, overlapQ, hint]
      rw [Nat.cast_zero, zero_div, zero_div, mul_zero, mul_zero, add_zero]
    have hscore : figureScore (slideText cexSlide) cexFigure 1 = 0.5 := by
      rw [figureScore, hsim]
      rw [if_pos (by decide)]
      norm_num
    have hbest : bestFigure (slideText cexSlide) [cexFigure] = some (1, 0.5) := by
      have h1 : bestFigure (slideText cexSlide) [cexFigure] =
          some (1, figureScore (slideText cexSlide) cexFigure 1) := rfl
      rw [h1, hscore]
    have hassign : assignFigureToSlide [cexFigure] cexSlide ≠ cexSlide := by
      rw [assignFigure_pos [cexFigure] cexSlide 1 0.5 hbest
        (by norm_num) (by decide)]
      decide
    intro hcontra
    apply hassign
    have heq : match_figures_to_slides [cexSlide] [cexFigure] =
        [assignFigureToSlide [cexFigure] cexSlide] := rfl
    rw [heq] at hcontra
    exact (List.cons_eq_cons.mp hcontra).1

/-- C5 (amended): a slide whose meaningful-word bag shares no word with any
figure's bag receives no figure and keeps its content unchanged, provided
its text also does not literally mention `figure N` / `fig N` for any
figure number N in range — without that proviso the flat +0.5 mention
bonus alone can push the score above the 0.1 threshold. -/
theorem C5_no_overlap_no_figure (figs : List Figure) (s : Slide)
    (hover : ∀ f ∈ figs, wordSet (slideText s) ∩ wordSet (figureText f) = ∅)
    (hment : ∀ n, 1 ≤ n → n ≤ figs.length → mentionsFigure (slideText s) n = false) :
    assignFigureToSlide figs s = s := by
  by_cases hfe : figs = []
  · subst hfe; rfl
  · obtain ⟨n, sc, hbest, hn1, hn2, hsc, hmax⟩ := bestFigure_spec (slideText s) figs hfe
    have hmemf : figs.getD (n - 1) default ∈ figs := by
      have hlt : n - 1 < figs.length := by omega
      rw [List.getD_eq_getElem figs default hlt]
      exact List.getElem_mem hlt
    have hzero : sc = 0 := by
      rw [hsc, figureScore_formula]
      rw [jaccardQ, overlapQ, hover _ hmemf, hment n hn1 hn2]
      rw [Finset.card_empty, Nat.cast_zero, zero_div, zero_div, mul_zero, mul_zero]
      rw [if_neg Bool.false_ne_true, add_zero, add_zero]
    have hthr : ¬ (0.1 : ℚ) < sc := by
      rw [hzero]
      norm_num
    exact assignFigure_neg figs s n sc hbest hthr

/-- C5 witness: a slide about alpha and beta shares no word with a zebra
figure and makes no figure-number mention, so it is left unchanged. -/
theorem C5_witness :
    assignFigureToSlide [⟨some "zebra stripes", none, some "/x.png"⟩]
      ⟨none, some "alpha beta gamma", none, none⟩ =
      ⟨none, some "alpha beta gamma", none, none⟩ :=
  C5_no_overlap_no_figure [⟨some "zebra stripes", none, some "/x.png"⟩]
    ⟨none, some "alpha beta gamma", none, none⟩
    (by intro f hf; rw [List.mem_singleton.mp hf]; decide)
    (by
      intro n h1 h2
      simp at h2
      have hn : n = 1 := by omega
      subst hn
      decide)

/-! ## C3: JSON repair pass -/

theorem escNL_append (a b : List Char) : escNL (a ++ b) = escNL a ++ escNL b := by
  induction a with
  | nil => rfl
  | cons c r ih =>
    by_cases hc : c = '\n'
    · simp [escNL, hc, ih]
    · simp [escNL, hc, ih]

theorem fixChars_cons_ne (c : Char) (l : List Char) (h : c ≠ '"') :
    fixChars (c :: l) = c :: fixChars l := by
  rw [fixChars]
  simp [h]

theorem fixChars_cons_quote (l content rest : List Char)
    (h : scanLiteral l = some (content, rest)) :
    fixChars ('"' :: l) = '"' :: (escNL content ++ '"' :: fixChars rest) := by
  rw [fixChars]
  split
  next =>
    split
    next x y heq =>
      have h2 := h.symm.trans heq
      rw [Option.some.injEq, Prod.mk.injEq] at h2
      rw [← h2.1, ← h2.2]
    next heq =>
      rw [h] at heq
      simp at heq
  next hq => exact absurd rfl hq

theorem fixChars_append_noquote : ∀ (l m : List Char), (∀ c ∈ l, c ≠ '"') →
    fixChars (l ++ m) = l ++ fixChars m := by
  intro l
  induction l with
  | nil => intro m _; rfl
  | cons c r ih =>
    intro m h
    rw [List.cons_append, fixChars_cons_ne c _ (h c (List.mem_cons_self _ _)),
      ih m (fun x hx => h x (List.mem_cons_of_mem _ hx))]
    rfl

theorem scanLit_escList (esc : Char → List Char) (H : EscOk esc) :
    ∀ (s t : List Char),
      scanLit false (escList esc s ++ ('"' :: t)) = some (escList esc s, t) := by
  intro s
  induction s with
  | nil => intro t; rfl
  | cons c s' ih =>
    intro t
    rcases H c with ⟨d, hd⟩ | ⟨hc, hq, hb⟩
    · rw [escList, hd]
      simp [scanLit, ih]
    · rw [escList, hc]
      simp [scanLit, hq, hb, ih]

theorem escNL_escList (esc : Char → List Char)
    (H2 : ∀ c, escNL (esc c) = escChar c) :
    ∀ s, escNL (escList esc s) = escList escChar s := by
  intro s
  induction s with
  | nil => rfl
  | cons c r ih => rw [escList, escList, escNL_append, H2, ih]

theorem escOk_escChar : EscOk escChar := by
  intro c
  by_cases h1 : c = '"'
  · exact Or.inl ⟨'"', by simp [escChar, h1]⟩
  · by_cases h2 : c = '\\'
    · exact Or.inl ⟨'\\', by simp [escChar, h1, h2]⟩
    · by_cases h3 : c = '\n'
      · exact Or.inl ⟨'n', by simp [escChar, h1, h2, h3]⟩
      · exact Or.inr ⟨by simp [escChar, h1, h2, h3], h1, h2⟩

theorem escOk_escCharRaw : EscOk escCharRaw := by
  intro c
  by_cases h1 : c = '"'
  · exact Or.inl ⟨'"', by simp [escCharRaw, h1]⟩
  · by_cases h2 : c = '\\'
    · exact Or.inl ⟨'\\', by simp [escCharRaw, h1, h2]⟩
    · exact Or.inr ⟨by simp [escCharRaw, h1, h2], h1, h2⟩

theorem escNL_escChar_char (c : Char) : escNL (escChar c) = escChar c := by
  by_cases h1 : c = '"'
  · rw [h1]; decide
  · by_cases h2 : c = '\\'
    · rw [h2]; decide
    · by_cases h3 : c = '\n'
      · rw [h3]; decide
      · simp [escChar, h1, h2, h3, escNL]

theorem escNL_escCharRaw_char (c : Char) : escNL (escCharRaw c) = escChar c := by
  by_cases h1 : c = '"'
  · rw [h1]; decide
  · by_cases h2 : c = '\\'
    · rw [h2]; decide
    · by_cases h3 : c = '\n'
      · rw [h3]; decide
      · simp [escCharRaw, escChar, h1, h2, h3, escNL]

theorem natDigitsAux_ne_quote : ∀ (fuel n : Nat) (c : Char),
    c ∈ natDigitsAux fuel n → c ≠ '"' := by
  intro fuel
  induction fuel with
  | zero => intro n c h; simp [natDigitsAux] at h
  | succ f ih =>
    intro n c h
    rw [natDigitsAux] at h
    by_cases hn : n < 10
    · rw [if_pos hn] at h
      simp at h
      subst h
      interval_cases n <;> decide
    · rw [if_neg hn] at h
      rcases List.mem_append.mp h with h1 | h2
      · exact ih _ c h1
      · simp at h2
        subst h2
        have hk : n % 10 < 10 := Nat.mod_lt _ (by omega)
        generalize n % 10 = k at hk
        interval_cases k <;> decide

theorem natDigits_ne_quote (n : Nat) : ∀ c ∈ natDigits n, c ≠ '"' :=
  fun c hc => natDigitsAux_ne_quote (n + 1) n c hc

mutual
theorem fix_encJson (esc : Char → List Char) (H : EscOk esc)
    (H2 : ∀ c, escNL (esc c) = escChar c) :
    ∀ (j : Json) (m : List Char),
      fixChars (encJson esc j ++ m) = encJson escChar j ++ fixChars m
  | .null, m => by
    rw [show encJson esc .null = "null".data from rfl,
        show encJson escChar .null = "null".data from rfl]
    exact fixChars_append_noquote _ m (by decide)
  | .jbool true, m => by
    rw [show encJson esc (.jbool true) = "true".data from rfl,
        show encJson escChar (.jbool true) = "true".data from rfl]
    exact fixChars_append_noquote _ m (by decide)
  | .jbool false, m => by
    rw [show encJson esc (.jbool false) = "false".data from rfl,
        show encJson escChar (.jbool false) = "false".data from rfl]
    exact fixChars_append_noquote _ m (by decide)
  | .num n, m => by
    rw [show encJson esc (.num n) = natDigits n from rfl,
        show encJson escChar (.num n) = natDigits n from rfl]
    exact fixChars_append_noquote _ m (natDigits_ne_quote n)
  | .str s, m => by
    rw [show encJson esc (.str s) = '"' :: (escList esc s ++ ['"']) from rfl,
        show encJson escChar (.str s) = '"' :: (escList escChar s ++ ['"']) from rfl]
    rw [show ('"' :: (escList esc s ++ ['"'])) ++ m
          = '"' :: (escList esc s ++ ('"' :: m)) by simp]
    rw [fixChars_cons_quote _ _ _ (scanLit_escList esc H s m)]
    rw [escNL_escList esc H2 s]
    simp
  | .arr xs, m => by
    rw [show encJson esc (.arr xs) = '[' :: (encArr esc xs ++ [']']) from rfl,
        show encJson escChar (.arr xs) = '[' :: (encArr escChar xs ++ [']']) from rfl]
    rw [show ('[' :: (encArr esc xs ++ [']'])) ++ m
          = '[' :: (encArr esc xs ++ (']' :: m)) by simp]
    rw [fixChars_cons_ne '[' _ (by decide)]
    rw [fix_encArr esc H H2 xs (']' :: m)]
    rw [fixChars_cons_ne ']' _ (by decide)]
    simp
  | .obj xs, m => by
    rw [show encJson esc (.obj xs) = braceL :: (encObj esc xs ++ [braceR]) from rfl,
        show encJson escChar (.obj xs) = braceL :: (encObj escChar xs ++ [braceR]) from rfl]
    rw [show (braceL :: (encObj esc xs ++ [braceR])) ++ m
          = braceL :: (encObj esc xs ++ (braceR :: m)) by simp]
    rw [fixChars_cons_ne braceL _ (by decide)]
    rw [fix_encObj esc H H2 xs (braceR :: m)]
    rw [fixChars_cons_ne braceR _ (by decide)]
    simp
theorem fix_encArr (esc : Char → List Char) (H : EscOk esc)
    (H2 : ∀ c, escNL (esc c) = escChar c) :
    ∀ (xs : JsonArr) (m : List Char),
      fixChars (encArr esc xs ++ m) = encArr escChar xs ++ fixChars m
  | .anil, m => by
    rw [show encArr esc .anil = [] from rfl, show encArr escChar .anil = [] from rfl]
    rfl
  | .acons hd .anil, m => by
    rw [show encArr esc (.acons hd .anil) = encJson esc hd ++ ([] ++ []) from rfl,
        show encArr escChar (.acons hd .anil) = encJson escChar hd ++ ([] ++ []) from rfl]
    simp only [List.append_nil, List.nil_append]
    exact fix_encJson esc H H2 hd m
  | .acons hd (.acons hd2 t2), m => by
    rw [show encArr esc (.acons hd (.acons hd2 t2))
          = encJson esc hd ++ (',' :: encArr esc (.acons hd2 t2)) from rfl,
        show encArr escChar (.acons hd (.acons hd2 t2))
          = encJson escChar hd ++ (',' :: encArr escChar (.acons hd2 t2)) from rfl]
    rw [show (encJson esc hd ++ (',' :: encArr esc (.acons hd2 t2))) ++ m
          = encJson esc hd ++ (',' :: (encArr esc (.acons hd2 t2) ++ m)) by simp]
    rw [fix_encJson esc H H2 hd (',' :: (encArr esc (.acons hd2 t2) ++ m))]
    rw [fixChars_cons_ne ',' _ (by decide)]
    rw [fix_encArr esc H H2 (.acons hd2 t2) m]
    simp
theorem fix_encObj (esc : Char → List Char) (H : EscOk esc)
    (H2 : ∀ c, escNL (esc c) = escChar c) :
    ∀ (xs : JsonObj) (m : List Char),
      fixChars (encObj esc xs ++ m) = encObj escChar xs ++ fixChars m
  | .onil, m => by
    rw [show encObj esc .onil = [] from rfl, show encObj escChar .onil = [] from rfl]
    rfl
  | .ocons k v t, m => by
    rw [show encObj esc (.ocons k v t)
          = ('"' :: (escList esc k ++ ['"'])) ++ (':' :: encJson esc v) ++
            ((match t with | .onil => [] | .ocons _ _ _ => [',']) ++ encObj esc t) from rfl,
        show encObj escChar (.ocons k v t)
          = ('"' :: (escList escChar k ++ ['"'])) ++ (':' :: encJson escChar v) ++
            ((match t with | .onil => [] | .ocons _ _ _ => [',']) ++ encObj escChar t) from rfl]
    rw [show (('"' :: (escList esc k ++ ['"'])) ++ (':' :: encJson esc v) ++
            ((match t with | .onil => [] | .ocons _ _ _ => [',']) ++ encObj esc t)) ++ m
          = '"' :: (escList esc k ++ ('"' :: (':' :: (encJson esc v ++
              (((match t with | .onil => [] | .ocons _ _ _ => [',']) ++ encObj esc t) ++ m)))))
          by simp]
    rw [fixChars_cons_quote _ _ _ (scanLit_escList esc H k
      (':' :: (encJson esc v ++
        (((match t with | .onil => [] | .ocons _ _ _ => [',']) ++ encObj esc t) ++ m))))]
    rw [escNL_escList esc H2 k]
    rw [fixChars_cons_ne ':' _ (by decide)]
    rw [fix_encJson esc H H2 v
      (((match t with | .onil => [] | .ocons _ _ _ => [',']) ++ encObj esc t) ++ m)]
    cases t with
    | onil =>
      simp only [List.nil_append]
      rw [fix_encObj esc H H2 .onil m]
      simp
    | ocons k2 v2 t3 =>
      rw [show ((match JsonObj.ocons k2 v2 t3 with
            | .onil => ([] : List Char) | .ocons _ _ _ => [',']) ++
            encObj esc (.ocons k2 v2 t3)) ++ m
          = ',' :: (encObj esc (.ocons k2 v2 t3) ++ m) from rfl]
      rw [fixChars_cons_ne ',' _ (by decide)]
      rw [fix_encObj esc H H2 (.ocons k2 v2 t3) m]
      simp
end

theorem fixChars_nil : fixChars [] = [] := by
  rw [fixChars]

theorem unesc_escList_escChar : ∀ s : List Char, unescChars (escList escChar s) = s := by
  intro s
  induction s with
  | nil => rfl
  | cons c r ih =>
    by_cases h1 : c = '"'
    · rw [escList, show escChar c = ['\\', '"'] by simp [escChar, h1]]
      rw [show (['\\', '"'] : List Char) ++ escList escChar r
            = '\\' :: '"' :: escList escChar r from rfl]
      simp [unescChars, ih, h1]
    · by_cases h2 : c = '\\'
      · rw [escList, show escChar c = ['\\', '\\'] by simp [escChar, h1, h2]]
        rw [show (['\\', '\\'] : List Char) ++ escList escChar r
              = '\\' :: '\\' :: escList escChar r from rfl]
        simp [unescChars, ih, h2]
      · by_cases h3 : c = '\n'
        · rw [escList, show escChar c = ['\\', 'n'] by simp [escChar, h1, h2, h3]]
          rw [show (['\\', 'n'] : List Char) ++ escList escChar r
                = '\\' :: 'n' :: escList escChar r from rfl]
          simp [unescChars, ih, h3]
        · rw [escList, show escChar c = [c] by simp [escChar, h1, h2, h3]]
          rw [show ([c] : List Char) ++ escList escChar r = c :: escList escChar r from rfl]
          rw [unescChars.eq_def]
          simp [h2, ih]

/-- C3: applying `fix_json_newlines` to the valid rendering of any JSON
value (no raw newlines inside string literals) returns it byte-identically;
applying it to the defective rendering of the same value — identical
except that newlines inside string literals are raw, the only defect —
returns exactly the valid rendering, which parses to the same value; and
the decoder for the produced string literals recovers every original
string body, so a body containing a newline still decodes to a string
containing that newline after repair. -/
theorem C3_json_repair_pass (j : Json) (s : List Char) :
    fix_json_newlines (jsonRender j) = jsonRender j ∧
    fix_json_newlines (jsonRenderRaw j) = jsonRender j ∧
    unescChars (escList escChar s) = s := by
  refine ⟨?_, ?_, unesc_escList_escChar s⟩
  · rw [fix_json_newlines, jsonRender]
    rw [show (String.mk (encJson escChar j)).data = encJson escChar j from rfl]
    have h := fix_encJson escChar escOk_escChar escNL_escChar_char j []
    rw [List.append_nil] at h
    rw [fixChars_nil, List.append_nil] at h
    rw [h]
  · rw [fix_json_newlines, jsonRenderRaw, jsonRender]
    rw [show (String.mk (encJson escCharRaw j)).data = encJson escCharRaw j from rfl]
    have h := fix_encJson escCharRaw escOk_escCharRaw escNL_escCharRaw_char j []
    rw [List.append_nil] at h
    rw [fixChars_nil, List.append_nil] at h
    rw [h]
